import Mathlib

/-!
# Verification of the cloudflare-email-worker routing and delivery pipeline

We shallowly embed the worker's JavaScript source in Lean 4.  JS strings are
modelled as lists of Unicode code points (`JsStr`); all characters that the
worker manipulates are in the Basic Multilingual Plane, so one code point is
one UTF-16 code unit and list length agrees with JS `String.length`.  Network
effects are modelled by explicit oracles (functions giving each request's
response) and every effectful function returns, next to its result, the trace
of platform calls it issued, so call-count and ordering properties can be
stated and settled.
-/

/-- A JS string, as the list of its UTF-16 code units (all BMP here). -/
abbrev JsStr := List Nat

/-- Embed a Lean string literal as a `JsStr`. -/
def str (s : String) : JsStr := s.data.map Char.toNat

/-- ASCII lower-casing of one code unit (`String.prototype.toLowerCase`
restricted to the ASCII range, which covers every character class the
worker's regexes and comparisons use). -/
def lowerCode (c : Nat) : Nat := if 65 ≤ c ∧ c ≤ 90 then c + 32 else c

/-- `String.prototype.toLowerCase` on a whole string. -/
def jsToLower (s : JsStr) : JsStr := s.map lowerCode

/-- The whitespace code points removed by `String.prototype.trim` and matched
by the regex class `\s`. -/
def isWsCode (c : Nat) : Bool :=
  c = 9 || c = 10 || c = 11 || c = 12 || c = 13 || c = 32 || c = 160 ||
  c = 8232 || c = 8233 || c = 65279

/-- `String.prototype.trim`: drop leading and trailing whitespace. -/
def jsTrim (s : JsStr) : JsStr :=
  ((s.dropWhile isWsCode).reverse.dropWhile isWsCode).reverse

/-- `Array.prototype.join` with a separator. -/
def jsJoin (sep : JsStr) (xs : List JsStr) : JsStr := List.intercalate sep xs

/-- JS `a || b` on an optional string (`undefined` and the empty string are
falsy). -/
def jsOrStr (a : Option JsStr) (b : JsStr) : JsStr :=
  match a with
  | some s => if s = [] then b else s
  | none => b

/-! ## sanitizeChannelName (src/unnamed/part_005, lines 553-561)

```js
function sanitizeChannelName(name) {
    return (name || "")
        .toLowerCase()
        .trim()
        .replace(/^#/, "")
        .replace(/\s+/g, "-")
        .replace(/[^a-z0-9-_]/g, "")
        .slice(0, 80);
}
```
-/

/-- `.replace(/^#/, "")`: drop a single leading `#` (code 35). -/
def stripLeadingHash : JsStr → JsStr
  | [] => []
  | c :: rest => if c = 35 then rest else c :: rest

/-- `.replace(/\s+/g, "-")`: each maximal whitespace run becomes one
hyphen (code 45). -/
def wsCollapse : JsStr → JsStr
  | [] => []
  | c :: rest =>
    if isWsCode c then 45 :: wsCollapse (rest.dropWhile isWsCode)
    else c :: wsCollapse rest
termination_by l => l.length
decreasing_by
  · exact Nat.lt_succ_of_le (List.IsSuffix.length_le (List.dropWhile_suffix isWsCode))
  · exact Nat.lt_succ_of_le (Nat.le_refl rest.length)

/-- Membership in the character class `[a-z0-9-_]`. -/
def isChannelNameCode (c : Nat) : Bool :=
  (97 ≤ c && c ≤ 122) || (48 ≤ c && c ≤ 57) || c = 45 || c = 95

/-- `sanitizeChannelName` from src/unnamed/part_005. -/
def sanitizeChannelName (name : JsStr) : JsStr :=
  ((wsCollapse (stripLeadingHash (jsTrim (jsToLower name)))).filter
    isChannelNameCode).take 80

/-! ## Router (src/unnamed/part_002, `resolveRouteConfig` / `normalizeAddress`)

```js
function normalizeAddress(address) {
    return `$\x7baddress || ""\x7d`.trim().toLowerCase();
}

function resolveRouteConfig(routes, toAddress) {
    if (!routes || typeof routes !== "object") return null;
    const normalizedTo = normalizeAddress(toAddress);
    for (const [key, value] of Object.entries(routes)) {
        if (key === "fallback") continue;
        if (normalizeAddress(key) === normalizedTo) return value;
    }
    return routes.fallback || null;
}
```
The routing table is modelled as its `Object.entries` list (keys unique in
insertion order after JSON parsing); property access is first-key lookup.
-/

/-- One route value of the parsed `ROUTES_JSON` table.  Route objects are
always truthy, so `routes.fallback || null` is plain optional lookup. -/
structure RouteVal where
  type : Option JsStr
  slack : Option JsStr
  forwardTo : Option (List JsStr)
deriving DecidableEq

/-- A parsed routing table: `Object.entries(routes)`. -/
abbrev RouteTable := List (JsStr × RouteVal)

/-- JS property access `routes[k]` on the entries list. -/
def jsLookup (routes : RouteTable) (k : JsStr) : Option RouteVal :=
  (routes.find? fun e => e.1 = k).map (fun e => e.2)

/-- `normalizeAddress` from src/unnamed/part_002. -/
def normalizeAddress (s : JsStr) : JsStr := jsToLower (jsTrim s)

/-- The `for (const [key, value] of Object.entries(routes))` loop body of
`resolveRouteConfig`: first non-`fallback` entry whose normalized key equals
the normalized recipient. -/
def findRouteMatch (n : JsStr) : RouteTable → Option RouteVal
  | [] => none
  | (k, v) :: rest =>
    if k = str "fallback" then findRouteMatch n rest
    else if normalizeAddress k = n then some v
    else findRouteMatch n rest

/-- `resolveRouteConfig` from src/unnamed/part_002. -/
def resolveRouteConfig (routes : RouteTable) (toAddress : JsStr) : Option RouteVal :=
  match findRouteMatch (normalizeAddress toAddress) routes with
  | some v => some v
  | none => jsLookup routes (str "fallback")

/-! ## ForwardDeliverer (src/unnamed/part_002, email handler forward loop)

```js
let hadForwardFailure = false;
for (const target of forwardToTargets) {
    try {
        await message.forward(target);
    } catch (error) {
        hadForwardFailure = true;
        try {
            const rewrittenHeaders = new Headers();
            rewrittenHeaders.set("From", routes.forwarder);
            rewrittenHeaders.set("Reply-To", message.from);
            await message.forward(target, rewrittenHeaders);
        } catch (retryError) {
            console.error("Forwarding failed", ...);
            message.setReject("Unable to forward this email");
            return;
        }
    }
}
```
`message.forward` outcomes are provided by two oracles (first attempt and
rewritten retry, per target).  `routes.forwarder` is the configured rewrite
sender; `Headers.set("From", undefined)` stores the string "undefined", which
the model reproduces with `Option.getD`.
-/

/-- One `message.forward` invocation: the target address and, for the
rewritten retry, the (`From`, `Reply-To`) header pair that was set. -/
structure FwdCall where
  target : JsStr
  rewritten : Option (JsStr × JsStr)
deriving DecidableEq

/-- The value stored by `rewrittenHeaders.set("From", routes.forwarder)`:
JS coerces a missing `forwarder` entry to the string "undefined". -/
def forwarderHeaderValue (forwarder : Option JsStr) : JsStr :=
  forwarder.getD (str "undefined")

/-- The forward loop of the src/unnamed/part_002 email handler.  Returns the
chronological list of `message.forward` calls and whether the handler rejected
the message (`setReject("Unable to forward this email")`), i.e. the fatal
outcome.  `att1 t` / `att2 t` tell whether the first / rewritten-retry forward
to target `t` succeeds (`false` = the promise rejects). -/
def deliverForwards (forwarder : Option JsStr) (origFrom : JsStr)
    (att1 att2 : JsStr → Bool) : List JsStr → List FwdCall × Bool
  | [] => ([], false)
  | t :: rest =>
    if att1 t then
      let r := deliverForwards forwarder origFrom att1 att2 rest
      (⟨t, none⟩ :: r.1, r.2)
    else
      let retry : FwdCall := ⟨t, some (forwarderHeaderValue forwarder, origFrom)⟩
      if att2 t then
        let r := deliverForwards forwarder origFrom att1 att2 rest
        (⟨t, none⟩ :: retry :: r.1, r.2)
      else
        ([⟨t, none⟩, retry], true)

/-! ## UploadProtocol (src/unnamed/part_005, `uploadBytesToSlack`, lines 319-357)

```js
async function uploadBytesToSlack(token, channelId, filename, bytes, ...) {
    const length = bytes?.byteLength ?? 0;
    if (!length) return false;

    const getUrlRes = await slackApiForm(token, "files.getUploadURLExternal",
        filename, length: String(length));
    if (!getUrlRes.ok) return false;

    const uploadRes = await fetch(getUrlRes.upload_url, ...bytes...);
    if (!uploadRes.ok) return false;

    const completeRes = await slackApiForm(token, "files.completeUploadExternal",
        files: [id: getUrlRes.file_id, title: filename], channel_id: channelId, ...);
    if (!completeRes.ok) return false;

    return true;
}
```
The three phases' responses come from an oracle; the function returns its
boolean result together with the chronological list of requests issued.
-/

/-- One request of the external upload flow. -/
inductive UploadCall
  /-- Phase 1, `files.getUploadURLExternal`, with the declared filename and
  byte length. -/
  | getUrl (filename : JsStr) (length : Nat)
  /-- Phase 2, raw byte POST to the upload URL, with the byte count sent. -/
  | postBytes (url : JsStr) (length : Nat)
  /-- Phase 3, `files.completeUploadExternal`. -/
  | complete (fileId : JsStr) (channelId : JsStr)
deriving DecidableEq

/-- Platform responses for one upload: phase 1 yields an upload URL and file
id when it succeeds, phases 2 and 3 yield transport/platform success. -/
structure UploadOracle where
  getUrl : JsStr → Nat → Option (JsStr × JsStr)
  postBytes : JsStr → List Nat → Bool
  complete : JsStr → JsStr → Bool

/-- `uploadBytesToSlack` from src/unnamed/part_005: result plus the list of
requests issued, in order. -/
def uploadBytesToSlack (o : UploadOracle) (channelId filename : JsStr)
    (bytes : List Nat) : Bool × List UploadCall :=
  if bytes.length = 0 then (false, [])
  else
    match o.getUrl filename bytes.length with
    | none => (false, [.getUrl filename bytes.length])
    | some (url, fileId) =>
      if o.postBytes url bytes then
        if o.complete fileId channelId then
          (true, [.getUrl filename bytes.length, .postBytes url bytes.length,
                  .complete fileId channelId])
        else
          (false, [.getUrl filename bytes.length, .postBytes url bytes.length,
                   .complete fileId channelId])
      else
        (false, [.getUrl filename bytes.length, .postBytes url bytes.length])

/-! ## ApiClient (src/unnamed/part_005, `slackApiJson`, lines 229-270)

```js
async function slackApiJson(token, method, bodyObj, retries = 2) {
    for (let attempt = 0; attempt <= retries; attempt++) {
        const res = await fetch(url, ...);

        if (res.status === 429 && attempt < retries) {
            const retryAfter = Number(res.headers.get("retry-after") || "1");
            await sleep(Math.min(Math.max(retryAfter, 1), 10) * 1000);
            continue;
        }

        const text = await res.text();
        let json;
        try { json = JSON.parse(text); }
        catch { return ok: false, error: "non_json_response", ...; }

        if (!json.ok) {
            if (attempt < retries && isRetryableSlackError(json.error)) {
                await sleep(600 * (attempt + 1));
                continue;
            }
            return ok: false, error: json.error, ...;
        }
        return ok: true, ...json;
    }
    return ok: false, error: "retries_exhausted";
}
```
Each attempt's HTTP response comes from an oracle indexed by attempt number:
its status, its numeric `retry-after` hint (absent hint defaults to 1), and
its body (`none` models a non-JSON body).  The run records the result, the
sleep durations in ms, and the number of HTTP requests issued.
-/

/-- A parsed Slack JSON body: the `ok` flag and the `error` code. -/
structure SlackJson where
  ok : Bool
  error : JsStr
deriving DecidableEq

/-- One attempt's HTTP response. -/
structure SlackResp where
  status : Nat
  retryAfter : Option Nat
  body : Option SlackJson
deriving DecidableEq

/-- The value `slackApiJson` returns: the `ok` flag and, on failure, the
error code. -/
structure ApiResult where
  ok : Bool
  error : Option JsStr
deriving DecidableEq

/-- A whole run of `slackApiJson`: final result, sleep durations (ms, in
order), and number of HTTP requests issued. -/
structure ApiRun where
  result : ApiResult
  sleeps : List Nat
  requests : Nat
deriving DecidableEq

/-- `isRetryableSlackError` from src/unnamed/part_005, lines 589-598. -/
def isRetryableSlackError (e : JsStr) : Bool :=
  (jsToLower e == str "ratelimited") || (jsToLower e == str "timeout") ||
  (jsToLower e == str "internal_error") ||
  (jsToLower e == str "service_unavailable") ||
  (jsToLower e == str "fatal_error")

/-- The `for (let attempt = 0; attempt <= retries; attempt++)` loop of
`slackApiJson`; `fuel` counts the remaining loop iterations
(`retries + 1 - attempt`), so `fuel = 0` is loop exit, the dead
`retries_exhausted` return. -/
def slackApiGo (o : Nat → SlackResp) (retries : Nat) :
    Nat → Nat → ApiRun
  | 0, _ => ⟨⟨false, some (str "retries_exhausted")⟩, [], 0⟩
  | fuel + 1, attempt =>
    if (o attempt).status = 429 ∧ attempt < retries then
      let rest := slackApiGo o retries fuel (attempt + 1)
      ⟨rest.result,
        (min (max ((o attempt).retryAfter.getD 1) 1) 10 * 1000) :: rest.sleeps,
        rest.requests + 1⟩
    else
      match (o attempt).body with
      | none => ⟨⟨false, some (str "non_json_response")⟩, [], 1⟩
      | some j =>
        if j.ok then ⟨⟨true, none⟩, [], 1⟩
        else if attempt < retries ∧ isRetryableSlackError j.error then
          let rest := slackApiGo o retries fuel (attempt + 1)
          ⟨rest.result, (600 * (attempt + 1)) :: rest.sleeps, rest.requests + 1⟩
        else ⟨⟨false, some j.error⟩, [], 1⟩

/-- `slackApiJson` from src/unnamed/part_005 with its default `retries = 2`:
at most three attempts. -/
def slackApiJson (o : Nat → SlackResp) : ApiRun := slackApiGo o 2 3 0

/-- Summary of one loop iteration: `some ms` when the attempt retries after
sleeping `ms` milliseconds, `none` when it returns. -/
def retryStepMs (r : SlackResp) (attempt retries : Nat) : Option Nat :=
  if r.status = 429 ∧ attempt < retries then
    some (min (max (r.retryAfter.getD 1) 1) 10 * 1000)
  else
    match r.body with
    | none => none
    | some j =>
      if j.ok then none
      else if attempt < retries ∧ isRetryableSlackError j.error then
        some (600 * (attempt + 1))
      else none

/-- The result a non-retrying iteration returns. -/
def finalResultOf (r : SlackResp) : ApiResult :=
  match r.body with
  | none => ⟨false, some (str "non_json_response")⟩
  | some j => if j.ok then ⟨true, none⟩ else ⟨false, some j.error⟩

/-! ## MessagePreviewRenderer (src/unnamed/part_005)

`clampSlackMrkdwn` (lines 532-538), `escapeSlackMrkdwn` (lines 545-551) and
the field texts of `buildSlackBlocks` (lines 380-421):

```js
function clampSlackMrkdwn(text, maxChars) {
    const t = (text || "").trim();
    if (!t) return "";
    const safe = escapeSlackMrkdwn(t);
    if (safe.length <= maxChars) return safe;
    return safe.slice(0, Math.max(0, maxChars - 1)) + "…";
}
```
Block text limit 3000, preview limit 2500, attachment list limit 10 (the
file's constants).  `buildSlackBlocks` is modelled as the list of the mrkdwn
field texts it emits (To, From, Subject, Preview, and the optional attachment
summary); the header and divider blocks carry no free text.
-/

/-- `escapeSlackMrkdwn` on one code unit: `&` `<` `>` become entities and a
backtick (96) becomes the modifier letter grave accent (715). -/
def escapeCode (c : Nat) : JsStr :=
  if c = 38 then str "&amp;"
  else if c = 60 then str "&lt;"
  else if c = 62 then str "&gt;"
  else if c = 96 then [715]
  else [c]

/-- `escapeSlackMrkdwn` from src/unnamed/part_005. -/
def escapeSlackMrkdwn (s : JsStr) : JsStr := s.flatMap escapeCode

/-- `clampSlackMrkdwn` from src/unnamed/part_005 (the ellipsis is code point
8230; `Math.max(0, maxChars - 1)` is Nat truncated subtraction). -/
def clampSlackMrkdwn (text : JsStr) (maxChars : Nat) : JsStr :=
  if jsTrim text = [] then []
  else
    if (escapeSlackMrkdwn (jsTrim text)).length ≤ maxChars then
      escapeSlackMrkdwn (jsTrim text)
    else (escapeSlackMrkdwn (jsTrim text)).take (maxChars - 1) ++ [8230]

/-- The preview text the handler passes to the blocks: clamp to 2500, or the
placeholder when no readable body was found (empty string is falsy). -/
def bodyPreviewOf (bodyText : JsStr) : JsStr :=
  if bodyText = [] then str "_(No readable body found.)_"
  else clampSlackMrkdwn bodyText 2500

/-- One parsed MIME attachment as `buildSlackBlocks` consumes it. -/
structure Att where
  filename : Option JsStr
  mimeType : Option JsStr
  size : Option Nat

/-- Decimal rendering of a number interpolated into a template literal. -/
def natToStr (n : Nat) : JsStr := (toString n).data.map Char.toNat

/-- One attachment list line:
`• ${i + 1}. ${filename || "attachment"} (${mimeType || "unknown"}, ${size ?? "?"} bytes)`. -/
def slackAttachmentLine (i : Nat) (a : Att) : JsStr :=
  str "• " ++ natToStr (i + 1) ++ str ". " ++
  jsOrStr a.filename (str "attachment") ++ str " (" ++
  jsOrStr a.mimeType (str "unknown") ++ str ", " ++
  (match a.size with | some n => natToStr n | none => str "?") ++
  str " bytes)"

/-- `attachments.slice(0, 10).map(line).join("\n")`. -/
def slackAttachmentLines (atts : List Att) : JsStr :=
  jsJoin [10] (((atts.take 10).enum).map fun p => slackAttachmentLine p.1 p.2)

/-- The optional attachment-summary field
(`Array.isArray(attachments) && attachments.length`). -/
def attachmentField : Option (List Att) → List JsStr
  | some atts =>
    if atts.length ≠ 0 then
      [(str "*Attachments (" ++ natToStr atts.length ++ str "):*\n" ++
        escapeSlackMrkdwn (slackAttachmentLines atts)).take 3000]
    else []
  | none => []

/-- The mrkdwn field texts of `buildSlackBlocks` from src/unnamed/part_005,
in block order. -/
def buildSlackBlocks (toHeader fromAddr subject bodyPreview : JsStr)
    (attachments : Option (List Att)) : List JsStr :=
  [(str "*To:*\n" ++ escapeSlackMrkdwn toHeader).take 3000,
   (str "*From:*\n" ++ escapeSlackMrkdwn fromAddr).take 3000,
   (str "*Subject:*\n" ++ escapeSlackMrkdwn subject).take 3000,
   (str "*Preview:*\n" ++ bodyPreview).take 3000] ++
  attachmentField attachments

/-! ## SlackTargetResolver (src/unnamed/part_005, lines 130-220)

`resolveSlackTargetId`, `openDmChannel`, `ensureChannelByName`,
`findChannelByName`:

```js
async function resolveSlackTargetId(token, route, cache, options) {
    const type = route?.type;
    if (type === "dm") {
        const userId = route.user;
        if (!userId) return null;
        return await openDmChannel(token, userId);
    }
    if (type === "channel") {
        if (route.id && /^[CG][A-Z0-9]+$/.test(route.id)) return route.id;
        const name = sanitizeChannelName(route.name || route.channel || route.slug || "");
        if (!name) return null;
        return await ensureChannelByName(token, name, cache, allowCreate);
    }
    return null;
}

async function ensureChannelByName(token, name, cache, allowCreate) {
    const cacheKey = `channel:...`;
    if (cache.has(cacheKey)) return cache.get(cacheKey);
    const existing = await findChannelByName(token, name);
    if (existing) { cache.set(cacheKey, existing); return existing; }
    if (!allowCreate) { cache.set(cacheKey, null); return null; }
    const created = await slackApiJson(token, "conversations.create", name);
    if (!created.ok) { cache.set(cacheKey, null); return null; }
    const id = created.channel?.id || null;
    cache.set(cacheKey, id);
    return id;
}
```
Platform responses are an oracle: `openResp` for `conversations.open`
(`none` when the call fails or no channel id comes back), `pages` for the
successive `conversations.list` responses, `createResp` for
`conversations.create`.  A *platform call* in the trace is one Slack API
method invocation.  The event-scoped `cache` (a `Map`) is threaded
explicitly; each function returns (value, cache, calls).
-/

/-- One Slack API call the resolver can issue. -/
inductive SlackCall
  | convOpen (user : JsStr)
  | convList
  | convCreate (name : JsStr)
deriving DecidableEq

/-- Whether a call is a `conversations.open` (direct-message open) call. -/
def isOpenCall : SlackCall → Bool
  | .convOpen _ => true
  | _ => false

/-- One `conversations.list` response page: `ok`, the channels as
(name, id) pairs, and whether `response_metadata.next_cursor` is nonempty. -/
structure ListPage where
  ok : Bool
  channels : List (JsStr × JsStr)
  nextCursor : Bool

/-- Platform responses for one event. -/
structure ResolverOracle where
  openResp : JsStr → Option JsStr
  pages : List ListPage
  createResp : JsStr → Option JsStr

/-- The event-scoped `cache` `Map`; stored values may be `null` (`none`). -/
abbrev ChannelCache := List (JsStr × Option JsStr)

/-- `cache.get` / `cache.has` combined: `some v` when the key is present. -/
def cacheGet (cache : ChannelCache) (k : JsStr) : Option (Option JsStr) :=
  (cache.find? fun e => e.1 = k).map (fun e => e.2)

/-- `cache.set` (later writes shadow earlier ones). -/
def cacheSet (cache : ChannelCache) (k : JsStr) (v : Option JsStr) : ChannelCache :=
  (k, v) :: cache

/-- `findChannelByName` from src/unnamed/part_005: walk the paginated
`conversations.list` responses until a channel with the wanted name and a
truthy id is found, a page fails, or the cursor runs out. -/
def findChannelByName (name : JsStr) : List ListPage → Option JsStr × List SlackCall
  | [] => (none, [SlackCall.convList])
  | p :: rest =>
    if p.ok = false then (none, [SlackCall.convList])
    else
      match p.channels.find? (fun c => c.1 = name) with
      | some c =>
        if c.2 ≠ [] then (some c.2, [SlackCall.convList])
        else if p.nextCursor then
          ((findChannelByName name rest).1,
            SlackCall.convList :: (findChannelByName name rest).2)
        else (none, [SlackCall.convList])
      | none =>
        if p.nextCursor then
          ((findChannelByName name rest).1,
            SlackCall.convList :: (findChannelByName name rest).2)
        else (none, [SlackCall.convList])

/-- `ensureChannelByName` from src/unnamed/part_005. -/
def ensureChannelByName (o : ResolverOracle) (allowCreate : Bool) (name : JsStr)
    (cache : ChannelCache) : Option JsStr × ChannelCache × List SlackCall :=
  match cacheGet cache (str "channel:" ++ name) with
  | some v => (v, cache, [])
  | none =>
    match (findChannelByName name o.pages).1 with
    | some id =>
      (some id, cacheSet cache (str "channel:" ++ name) (some id),
        (findChannelByName name o.pages).2)
    | none =>
      if allowCreate = false then
        (none, cacheSet cache (str "channel:" ++ name) none,
          (findChannelByName name o.pages).2)
      else
        (o.createResp name,
          cacheSet cache (str "channel:" ++ name) (o.createResp name),
          (findChannelByName name o.pages).2 ++ [SlackCall.convCreate name])

/-- A normalized route as `resolveSlackTargetId` reads it. -/
structure NRoute where
  type : Option JsStr
  user : Option JsStr
  id : Option JsStr
  name : Option JsStr
  channel : Option JsStr
  slug : Option JsStr

/-- The channel-id shape `/^[CG][A-Z0-9]+$/`. -/
def isValidChannelId (s : JsStr) : Bool :=
  match s with
  | [] => false
  | c :: rest =>
    (c == 67 || c == 71) && !rest.isEmpty &&
      rest.all (fun d => (65 ≤ d && d ≤ 90) || (48 ≤ d && d ≤ 57))

/-- The channel-by-name path of `resolveSlackTargetId`. -/
def resolveChannelRoute (o : ResolverOracle) (allowCreate : Bool)
    (route : NRoute) (cache : ChannelCache) :
    Option JsStr × ChannelCache × List SlackCall :=
  if sanitizeChannelName
      (jsOrStr route.name (jsOrStr route.channel (jsOrStr route.slug []))) = []
  then (none, cache, [])
  else
    ensureChannelByName o allowCreate
      (sanitizeChannelName
        (jsOrStr route.name (jsOrStr route.channel (jsOrStr route.slug []))))
      cache

/-- `resolveSlackTargetId` from src/unnamed/part_005.  The dm branch is
`openDmChannel` inlined: one `conversations.open` call whose oracle answer
already collapses `res.ok` and `res.channel?.id || null`. -/
def resolveSlackTargetId (o : ResolverOracle) (allowCreate : Bool)
    (route : NRoute) (cache : ChannelCache) :
    Option JsStr × ChannelCache × List SlackCall :=
  if route.type = some (str "dm") then
    match route.user with
    | none => (none, cache, [])
    | some u =>
      if u = [] then (none, cache, [])
      else (o.openResp u, cache, [SlackCall.convOpen u])
  else if route.type = some (str "channel") then
    match route.id with
    | some i =>
      if isValidChannelId i then (some i, cache, [])
      else resolveChannelRoute o allowCreate route cache
    | none => resolveChannelRoute o allowCreate route cache
  else (none, cache, [])

/-! ## Recipient extraction (src/unnamed/part_005, lines 465-491)

```js
function getPrimaryRecipient(message, stripPlusAddressing) {
    const all = [];
    const to = message?.to;
    if (Array.isArray(to)) all.push(...to);
    else if (to) all.push(to);
    const toHeader = message?.headers?.get?.("to");
    if (toHeader) all.push(toHeader);
    const found = extractFirstEmail(all.join(", "));
    if (!found) return "unknown@unknown";
    return (stripPlusAddressing ? stripPlus(found) : found).toLowerCase();
}

function extractFirstEmail(s) {
    const m = String(s || "").match(/([a-z0-9._%+-]+@[a-z0-9.-]+\.[a-z]\x7b2,\x7d)/i);
    return m ? m[1] : null;
}

function stripPlus(email) {
    const m = String(email).match(/^([^@+]+)(?:\+[^@]+)?@(.+)$/);
    return m ? `$\x7bm[1]\x7d@$\x7bm[2]\x7d` : email;
}
```
The regexes are embedded by their backtracking semantics.  For the email
regex, a greedy one-or-more class run followed by a character outside the
class never needs backtracking, so the local part is the maximal run of
local-class characters followed by a literal `@`; the domain part tries the
maximal run of domain-class characters and backtracks it one character at a
time until a literal dot followed by at least two letters fits.  The match
scan starts at each index in turn, leftmost first.
-/

/-- The class `[a-z0-9._%+-]` with the `i` flag. -/
def isEmailLocalCode (c : Nat) : Bool :=
  (97 ≤ c && c ≤ 122) || (65 ≤ c && c ≤ 90) || (48 ≤ c && c ≤ 57) ||
  c == 46 || c == 95 || c == 37 || c == 43 || c == 45

/-- The class `[a-z0-9.-]` with the `i` flag. -/
def isEmailDomainCode (c : Nat) : Bool :=
  (97 ≤ c && c ≤ 122) || (65 ≤ c && c ≤ 90) || (48 ≤ c && c ≤ 57) ||
  c == 46 || c == 45

/-- The class `[a-z]` with the `i` flag. -/
def isAlphaCode (c : Nat) : Bool := (97 ≤ c && c ≤ 122) || (65 ≤ c && c ≤ 90)

/-- Backtracking search for `[a-z0-9.-]+\.[a-z]\x7b2,\x7d` at the start of
`m`: try a domain run of length `k`, `k - 1`, ..., `1`; each try needs a
literal dot (46) right after the run and at least two letters after the
dot.  Returns the matched suffix on success. -/
def emailDomainSplit (m : JsStr) : Nat → Option JsStr
  | 0 => none
  | k + 1 =>
    if m.get? (k + 1) = some 46 ∧
        2 ≤ ((m.drop (k + 2)).takeWhile isAlphaCode).length then
      some (m.take (k + 1) ++ 46 :: (m.drop (k + 2)).takeWhile isAlphaCode)
    else emailDomainSplit m k

/-- Match the email regex exactly at the start of `l`. -/
def matchEmailAt (l : JsStr) : Option JsStr :=
  if l.takeWhile isEmailLocalCode = [] then none
  else
    match l.drop (l.takeWhile isEmailLocalCode).length with
    | 64 :: m =>
      (emailDomainSplit m ((m.takeWhile isEmailDomainCode).length)).map
        (fun d => l.takeWhile isEmailLocalCode ++ 64 :: d)
    | _ => none

/-- `extractFirstEmail` from src/unnamed/part_005: first match, scanning
start positions left to right. -/
def extractFirstEmail : JsStr → Option JsStr
  | [] => none
  | c :: rest =>
    match matchEmailAt (c :: rest) with
    | some r => some r
    | none => extractFirstEmail rest

/-- `stripPlus` from src/unnamed/part_005: `user+tag@domain` becomes
`user@domain`; on no match the address is returned unchanged.  `[^@+]+` is a
maximal run (characters after a shorter run would still be outside the
follow set), the optional `\+[^@]+` group is tried first, and `(.+)$` needs a
nonempty tail. -/
def stripPlus (email : JsStr) : JsStr :=
  if email.takeWhile (fun c => !(c == 64) && !(c == 43)) = [] then email
  else
    match email.drop
        (email.takeWhile (fun c => !(c == 64) && !(c == 43))).length with
    | 43 :: rest =>
      if rest.takeWhile (fun c => !(c == 64)) = [] then email
      else
        match rest.drop (rest.takeWhile (fun c => !(c == 64))).length with
        | 64 :: tail =>
          if tail = [] then email
          else email.takeWhile (fun c => !(c == 64) && !(c == 43)) ++ 64 :: tail
        | _ => email
    | 64 :: tail =>
      if tail = [] then email
      else email.takeWhile (fun c => !(c == 64) && !(c == 43)) ++ 64 :: tail
    | _ => email

/-- `message.to` can be absent, a string, or an array of strings. -/
inductive ToField
  | absent
  | single (v : JsStr)
  | multiple (vs : List JsStr)

/-- The shape of an inbound message as `getPrimaryRecipient` reads it:
`message.to` and the `To` header (already the result of
`message?.headers?.get?.("to")`, `none` when headers or the header are
missing). -/
structure EmailMsg where
  toVal : ToField
  headerTo : Option JsStr

/-- The `all` array built by `getPrimaryRecipient` (an empty string is falsy
and is not pushed; array elements are pushed unconditionally). -/
def collectRecipientSources (msg : EmailMsg) : List JsStr :=
  (match msg.toVal with
   | .absent => []
   | .single v => if v = [] then [] else [v]
   | .multiple vs => vs) ++
  (match msg.headerTo with
   | some h => if h = [] then [] else [h]
   | none => [])

/-- `getPrimaryRecipient` from src/unnamed/part_005. -/
def getPrimaryRecipient (msg : EmailMsg) (stripPlusAddressing : Bool) : JsStr :=
  match extractFirstEmail (jsJoin (str ", ") (collectRecipientSources msg)) with
  | none => str "unknown@unknown"
  | some found =>
    jsToLower (if stripPlusAddressing then stripPlus found else found)

/-! ## Theorems -/

theorem lowerCode_fixed_of_channelCode {c : Nat}
    (h : isChannelNameCode c = true) : lowerCode c = c := by
  simp only [isChannelNameCode, Bool.or_eq_true, Bool.and_eq_true,
    decide_eq_true_eq] at h
  unfold lowerCode
  rw [if_neg]
  omega

theorem isWsCode_false_of_channelCode {c : Nat}
    (h : isChannelNameCode c = true) : isWsCode c = false := by
  simp only [isChannelNameCode, Bool.or_eq_true, Bool.and_eq_true,
    decide_eq_true_eq] at h
  simp only [isWsCode, Bool.or_eq_false_iff, decide_eq_false_iff_not]
  omega

theorem dropWhile_eq_self_of_not {p : Nat → Bool} {l : JsStr}
    (h : ∀ c ∈ l, p c = false) : l.dropWhile p = l := by
  cases l with
  | nil => rfl
  | cons c rest =>
    rw [List.dropWhile_cons, h c (List.mem_cons_self c rest)]
    simp

theorem jsTrim_eq_self_of_not_ws {l : JsStr}
    (h : ∀ c ∈ l, isWsCode c = false) : jsTrim l = l := by
  unfold jsTrim
  rw [dropWhile_eq_self_of_not h, dropWhile_eq_self_of_not, List.reverse_reverse]
  intro c hc
  exact h c (List.mem_reverse.mp hc)

theorem jsToLower_eq_self_of_channelCode {l : JsStr}
    (h : ∀ c ∈ l, isChannelNameCode c = true) : jsToLower l = l := by
  unfold jsToLower
  induction l with
  | nil => rfl
  | cons c rest ih =>
    rw [List.map_cons, lowerCode_fixed_of_channelCode (h c (List.mem_cons_self c rest)),
      ih fun d hd => h d (List.mem_cons_of_mem c hd)]

theorem wsCollapse_eq_self_of_not_ws {l : JsStr}
    (h : ∀ c ∈ l, isWsCode c = false) : wsCollapse l = l := by
  induction l with
  | nil => rw [wsCollapse]
  | cons c rest ih =>
    rw [wsCollapse, if_neg, ih fun d hd => h d (List.mem_cons_of_mem c hd)]
    rw [h c (List.mem_cons_self c rest)]
    simp

theorem stripLeadingHash_eq_self_of_channelCode {l : JsStr}
    (h : ∀ c ∈ l, isChannelNameCode c = true) : stripLeadingHash l = l := by
  cases l with
  | nil => rfl
  | cons c rest =>
    have hc := h c (List.mem_cons_self c rest)
    simp only [isChannelNameCode, Bool.or_eq_true, Bool.and_eq_true,
      decide_eq_true_eq] at hc
    simp only [stripLeadingHash]
    rw [if_neg]
    omega

theorem mem_sanitizeChannelName_channelCode {s : JsStr} {c : Nat}
    (h : c ∈ sanitizeChannelName s) : isChannelNameCode c = true := by
  unfold sanitizeChannelName at h
  exact List.of_mem_filter (List.mem_of_mem_take h)

/-- C10: `sanitizeChannelName` returns at most 80 characters, all drawn from
`[a-z0-9-_]`, and is idempotent. -/
theorem sanitizeChannelName_bounded_and_idempotent (s : JsStr) :
    (sanitizeChannelName s).length ≤ 80 ∧
    (∀ c ∈ sanitizeChannelName s, isChannelNameCode c = true) ∧
    sanitizeChannelName (sanitizeChannelName s) = sanitizeChannelName s := by
  refine ⟨?_, fun c hc => mem_sanitizeChannelName_channelCode hc, ?_⟩
  · unfold sanitizeChannelName
    rw [List.length_take]
    exact Nat.min_le_left _ _
  · have hall : ∀ c ∈ sanitizeChannelName s, isChannelNameCode c = true :=
      fun c hc => mem_sanitizeChannelName_channelCode hc
    have hws : ∀ c ∈ sanitizeChannelName s, isWsCode c = false :=
      fun c hc => isWsCode_false_of_channelCode (hall c hc)
    have hlen : (sanitizeChannelName s).length ≤ 80 := by
      unfold sanitizeChannelName
      rw [List.length_take]
      exact Nat.min_le_left _ _
    conv_lhs => rw [sanitizeChannelName]
    rw [jsToLower_eq_self_of_channelCode hall,
      jsTrim_eq_self_of_not_ws hws,
      stripLeadingHash_eq_self_of_channelCode hall,
      wsCollapse_eq_self_of_not_ws hws,
      List.filter_eq_self.mpr hall,
      List.take_of_length_le hlen]

/-! ### Router: fallback behaviour (C2) -/

theorem findRouteMatch_eq_none {routes : RouteTable} {n : JsStr}
    (h : ∀ e ∈ routes, e.1 ≠ str "fallback" → normalizeAddress e.1 ≠ n) :
    findRouteMatch n routes = none := by
  induction routes with
  | nil => rfl
  | cons e rest ih =>
    obtain ⟨k, v⟩ := e
    rw [findRouteMatch]
    by_cases hk : k = str "fallback"
    · rw [if_pos hk]
      exact ih fun e he hne => h e (List.mem_cons_of_mem _ he) hne
    · rw [if_neg hk, if_neg (h (k, v) (List.mem_cons_self _ _) hk)]
      exact ih fun e he hne => h e (List.mem_cons_of_mem _ he) hne

/-- C2: if no non-fallback route key matches the normalized recipient, the
resolver returns the table's `fallback` entry when present and `null`
(`none`) otherwise; the reserved `fallback` key is excluded from normal
matching (the hypothesis exempts it). -/
theorem resolveRouteConfig_no_match_gives_fallback (routes : RouteTable)
    (toAddress : JsStr)
    (h : ∀ e ∈ routes, e.1 ≠ str "fallback" →
      normalizeAddress e.1 ≠ normalizeAddress toAddress) :
    resolveRouteConfig routes toAddress = jsLookup routes (str "fallback") := by
  unfold resolveRouteConfig
  rw [findRouteMatch_eq_none h]

/-- Witness for C2: a concrete table whose only keys are a non-matching
address and the reserved fallback; resolution returns the fallback value,
and with the fallback entry removed it returns `none`. -/
theorem resolveRouteConfig_no_match_gives_fallback_witness :
    resolveRouteConfig
        [(str "a@b.co", ⟨some (str "channel"), some (str "C1"), none⟩),
         (str "fallback", ⟨some (str "dm"), some (str "U9"), none⟩)]
        (str "zzz@q.io")
      = some ⟨some (str "dm"), some (str "U9"), none⟩ ∧
    resolveRouteConfig
        [(str "a@b.co", ⟨some (str "channel"), some (str "C1"), none⟩)]
        (str "zzz@q.io")
      = none := by
  constructor
  · rw [resolveRouteConfig_no_match_gives_fallback _ _ (by decide)]
    decide
  · rw [resolveRouteConfig_no_match_gives_fallback _ _ (by decide)]
    decide

/-! ### Router: case and whitespace insensitivity (C5) -/

theorem dropWhile_ws_append_of_ws {w : JsStr}
    (hw : ∀ c ∈ w, isWsCode c = true) (l : JsStr) :
    (w ++ l).dropWhile isWsCode = l.dropWhile isWsCode := by
  induction w with
  | nil => rfl
  | cons c rest ih =>
    rw [List.cons_append, List.dropWhile_cons,
      hw c (List.mem_cons_self c rest)]
    exact ih fun d hd => hw d (List.mem_cons_of_mem c hd)

theorem jsTrim_ws_append_left {w : JsStr}
    (hw : ∀ c ∈ w, isWsCode c = true) (l : JsStr) :
    jsTrim (w ++ l) = jsTrim l := by
  unfold jsTrim
  rw [dropWhile_ws_append_of_ws hw]

theorem dropWhile_append_cases (p : Nat → Bool) (l w : JsStr) :
    (l ++ w).dropWhile p =
      (if l.dropWhile p = [] then w.dropWhile p else l.dropWhile p ++ w) := by
  induction l with
  | nil => simp
  | cons c rest ih =>
    rw [List.cons_append, List.dropWhile_cons, List.dropWhile_cons]
    by_cases hc : p c = true
    · rw [if_pos hc, if_pos hc, ih]
    · rw [if_neg hc, if_neg hc]
      simp

theorem jsTrim_ws_append_right {w : JsStr}
    (hw : ∀ c ∈ w, isWsCode c = true) (l : JsStr) :
    jsTrim (l ++ w) = jsTrim l := by
  unfold jsTrim
  rw [dropWhile_append_cases]
  by_cases h0 : l.dropWhile isWsCode = []
  · rw [if_pos h0, h0]
    have hnil : w.dropWhile isWsCode = [] := List.dropWhile_eq_nil_iff.mpr hw
    rw [hnil]
  · rw [if_neg h0, List.reverse_append,
      dropWhile_ws_append_of_ws fun c hc => hw c (List.mem_reverse.mp hc)]

theorem isWsCode_eq_of_lowerCode_eq {c1 c2 : Nat}
    (h : lowerCode c1 = lowerCode c2) : isWsCode c1 = isWsCode c2 := by
  have hletter : ∀ c : Nat, (65 ≤ c ∧ c ≤ 90) ∨ (97 ≤ c ∧ c ≤ 122) →
      isWsCode c = false := by
    intro c hc
    simp only [isWsCode, Bool.or_eq_false_iff, decide_eq_false_iff_not]
    omega
  unfold lowerCode at h
  split_ifs at h with h1 h2 h2
  · rw [show c1 = c2 by omega]
  · rw [hletter c1 (Or.inl h1), hletter c2 (Or.inr ⟨by omega, by omega⟩)]
  · rw [hletter c2 (Or.inl h2), hletter c1 (Or.inr ⟨by omega, by omega⟩)]
  · rw [h]

theorem jsToLower_dropWhile_ws_congr : ∀ {l1 l2 : JsStr},
    jsToLower l1 = jsToLower l2 →
    jsToLower (l1.dropWhile isWsCode) = jsToLower (l2.dropWhile isWsCode) := by
  intro l1
  induction l1 with
  | nil =>
    intro l2 h
    have : l2 = [] := by
      cases l2 with
      | nil => rfl
      | cons c r => simp [jsToLower] at h
    rw [this]
  | cons c1 r1 ih =>
    intro l2 h
    cases l2 with
    | nil => simp [jsToLower] at h
    | cons c2 r2 =>
      simp only [jsToLower, List.map_cons, List.cons.injEq] at h
      obtain ⟨hc, hr⟩ := h
      rw [List.dropWhile_cons, List.dropWhile_cons,
        isWsCode_eq_of_lowerCode_eq hc]
      by_cases hws : isWsCode c2 = true
      · rw [if_pos hws, if_pos hws]
        exact ih hr
      · rw [if_neg hws, if_neg hws]
        simp only [jsToLower, List.map_cons, hc, hr]

theorem jsToLower_reverse (l : JsStr) :
    jsToLower l.reverse = (jsToLower l).reverse := by
  unfold jsToLower
  exact List.map_reverse lowerCode l

theorem normalizeAddress_congr_of_case {l1 l2 : JsStr}
    (h : jsToLower l1 = jsToLower l2) :
    normalizeAddress l1 = normalizeAddress l2 := by
  unfold normalizeAddress jsTrim
  rw [jsToLower_reverse, jsToLower_reverse]
  apply congrArg List.reverse
  apply jsToLower_dropWhile_ws_congr
  rw [jsToLower_reverse, jsToLower_reverse]
  apply congrArg List.reverse
  exact jsToLower_dropWhile_ws_congr h

/-- C5: two recipient strings that differ only in surrounding whitespace and
in letter case (equal after character-wise lower-casing of their cores)
resolve to the same route. -/
theorem resolveRouteConfig_case_ws_insensitive (routes : RouteTable)
    (w1 w2 w3 w4 core1 core2 : JsStr)
    (hw1 : ∀ c ∈ w1, isWsCode c = true) (hw2 : ∀ c ∈ w2, isWsCode c = true)
    (hw3 : ∀ c ∈ w3, isWsCode c = true) (hw4 : ∀ c ∈ w4, isWsCode c = true)
    (hcase : jsToLower core1 = jsToLower core2) :
    resolveRouteConfig routes (w1 ++ core1 ++ w2) =
      resolveRouteConfig routes (w3 ++ core2 ++ w4) := by
  have hn : normalizeAddress (w1 ++ core1 ++ w2) =
      normalizeAddress (w3 ++ core2 ++ w4) := by
    unfold normalizeAddress
    rw [List.append_assoc, List.append_assoc,
      jsTrim_ws_append_left hw1, jsTrim_ws_append_left hw3,
      jsTrim_ws_append_right hw2, jsTrim_ws_append_right hw4]
    have hc := @normalizeAddress_congr_of_case core1 core2 hcase
    unfold normalizeAddress at hc
    exact hc
  unfold resolveRouteConfig
  rw [hn]

/-- Witness for C5: `" Support@X.COM"` and `"support@x.com  "` resolve to the
same route in a concrete table. -/
theorem resolveRouteConfig_case_ws_insensitive_witness :
    resolveRouteConfig
        [(str "support@x.com", ⟨some (str "channel"), some (str "C2H"), none⟩)]
        ([32] ++ str "Support@X.COM" ++ []) =
      resolveRouteConfig
        [(str "support@x.com", ⟨some (str "channel"), some (str "C2H"), none⟩)]
        ([] ++ str "support@x.com" ++ [32, 32]) :=
  resolveRouteConfig_case_ws_insensitive _ [32] [] [] [32, 32]
    (str "Support@X.COM") (str "support@x.com")
    (by decide) (by decide) (by decide) (by decide) (by decide)

/-! ### ForwardDeliverer: retry and fatality policy (C1) -/

theorem deliverForwards_calls_target_mem (forwarder : Option JsStr)
    (origFrom : JsStr) (att1 att2 : JsStr → Bool) :
    ∀ ts : List JsStr,
      ∀ c ∈ (deliverForwards forwarder origFrom att1 att2 ts).1, c.target ∈ ts := by
  intro ts
  induction ts with
  | nil =>
    intro c hc
    simp [deliverForwards] at hc
  | cons t0 rest ih =>
    intro c hc
    by_cases h1 : att1 t0 = true
    · simp only [deliverForwards, h1, if_true] at hc
      rcases List.mem_cons.mp hc with hh | hh
      · rw [hh]
        exact List.mem_cons_self _ _
      · exact List.mem_cons_of_mem _ (ih c hh)
    · rw [Bool.not_eq_true] at h1
      by_cases h2 : att2 t0 = true
      · simp only [deliverForwards, h1, h2, Bool.false_eq_true, if_false, if_true] at hc
        rcases List.mem_cons.mp hc with hh | hh
        · rw [hh]
          exact List.mem_cons_self _ _
        rcases List.mem_cons.mp hh with hh2 | hh2
        · rw [hh2]
          exact List.mem_cons_self _ _
        · exact List.mem_cons_of_mem _ (ih c hh2)
      · rw [Bool.not_eq_true] at h2
        simp only [deliverForwards, h1, h2, Bool.false_eq_true, if_false] at hc
        rcases List.mem_cons.mp hc with hh | hh
        · rw [hh]
          exact List.mem_cons_self _ _
        · rcases List.mem_cons.mp hh with hh2 | hh2
          · rw [hh2]
            exact List.mem_cons_self _ _
          · simp at hh2

/-- Counterexample to C1 as stated: `routes.forwarder` is absent, so no valid
rewritten sender is derivable, yet the code still issues exactly one rewritten
retry (whose `From` is the coerced string "undefined"), and since that retry
succeeds the message is not rejected — the claim demanded no retry and a
fatal outcome. -/
theorem deliverForwards_c1_counterexample :
    ((deliverForwards none (str "alice@src.io") (fun _ => false)
        (fun _ => true) [str "team@example.com"]).1.filter
        (fun c => c.rewritten.isSome)).length = 1 ∧
    (deliverForwards none (str "alice@src.io") (fun _ => false)
        (fun _ => true) [str "team@example.com"]).2 = false := by
  decide

/-- C1 (amended): whenever a first forward attempt raises, the loop always
issues exactly one rewritten retry for that target, with `From` equal to the
configured `routes.forwarder` (coerced to "undefined" when absent; no
validity or distinctness check) and `Reply-To` equal to the original sender;
the outcome is fatal (the message is rejected) iff some target fails both its
first attempt and its retry. -/
theorem deliverForwards_retry_policy (forwarder : Option JsStr)
    (origFrom : JsStr) (att1 att2 : JsStr → Bool) (targets : List JsStr)
    (hnd : targets.Nodup) :
    (∀ c ∈ (deliverForwards forwarder origFrom att1 att2 targets).1,
      ∀ hs, c.rewritten = some hs →
        hs.1 = forwarderHeaderValue forwarder ∧ hs.2 = origFrom) ∧
    (∀ t, ((deliverForwards forwarder origFrom att1 att2 targets).1.filter
        (fun c => c.target == t && c.rewritten.isSome)).length ≤ 1) ∧
    ((deliverForwards forwarder origFrom att1 att2 targets).2 = false →
      ∀ t ∈ targets, att1 t = false →
        ((deliverForwards forwarder origFrom att1 att2 targets).1.filter
          (fun c => c.target == t && c.rewritten.isSome)).length = 1) ∧
    ((deliverForwards forwarder origFrom att1 att2 targets).2 = true ↔
      ∃ t ∈ targets, att1 t = false ∧ att2 t = false) := by
  revert hnd
  induction targets with
  | nil =>
    intro _
    refine ⟨?_, ?_, ?_, ?_⟩
    · intro c hc
      simp [deliverForwards] at hc
    · intro t
      simp [deliverForwards]
    · intro _ t ht
      simp at ht
    · simp [deliverForwards]
  | cons t0 rest ih =>
    intro hnd
    have hnd' : rest.Nodup := (List.nodup_cons.mp hnd).2
    have ht0 : t0 ∉ rest := (List.nodup_cons.mp hnd).1
    obtain ⟨ih1, ih2, ih3, ih4⟩ := ih hnd'
    have hzero : ∀ t, t ∉ rest →
        ((deliverForwards forwarder origFrom att1 att2 rest).1.filter
          (fun c => c.target == t && c.rewritten.isSome)) = [] := by
      intro t ht
      rw [List.filter_eq_nil_iff]
      intro c hc
      have := deliverForwards_calls_target_mem forwarder origFrom att1 att2 rest c hc
      simp only [Bool.and_eq_true, beq_iff_eq, not_and]
      intro he
      exact absurd (he ▸ this) ht
    by_cases h1 : att1 t0 = true
    · refine ⟨?_, ?_, ?_, ?_⟩
      · intro c hc hs hhs
        simp only [deliverForwards, h1, if_true] at hc
        rcases List.mem_cons.mp hc with hh | hh
        · rw [hh] at hhs
          simp at hhs
        · exact ih1 c hh hs hhs
      · intro t
        simp only [deliverForwards, h1, if_true, List.filter_cons]
        simp only [Option.isSome_none, Bool.and_false, Bool.false_eq_true, if_false]
        exact ih2 t
      · intro hfatal t ht hat
        simp only [deliverForwards, h1, if_true] at hfatal ⊢
        rcases List.mem_cons.mp ht with hh | hh
        · rw [hh] at hat
          rw [hat] at h1
          simp at h1
        · rw [List.filter_cons]
          simp only [Option.isSome_none, Bool.and_false, Bool.false_eq_true, if_false]
          exact ih3 hfatal t hh hat
      · simp only [deliverForwards, h1, if_true]
        rw [ih4]
        constructor
        · rintro ⟨t, ht, hfail⟩
          exact ⟨t, List.mem_cons_of_mem _ ht, hfail⟩
        · rintro ⟨t, ht, hfail⟩
          rcases List.mem_cons.mp ht with hh | hh
          · rw [hh] at hfail
            rw [hfail.1] at h1
            simp at h1
          · exact ⟨t, hh, hfail⟩
    · rw [Bool.not_eq_true] at h1
      by_cases h2 : att2 t0 = true
      · refine ⟨?_, ?_, ?_, ?_⟩
        · intro c hc hs hhs
          simp only [deliverForwards, h1, h2, Bool.false_eq_true, if_false, if_true] at hc
          rcases List.mem_cons.mp hc with hh | hh
          · rw [hh] at hhs
            simp at hhs
          rcases List.mem_cons.mp hh with hh2 | hh2
          · rw [hh2] at hhs
            simp only [Option.some.injEq] at hhs
            rw [← hhs]
            exact ⟨rfl, rfl⟩
          · exact ih1 c hh2 hs hhs
        · intro t
          simp only [deliverForwards, h1, h2, Bool.false_eq_true, if_false, if_true,
            List.filter_cons]
          simp only [Option.isSome_none, Bool.and_false, Bool.false_eq_true, if_false,
            Option.isSome_some, Bool.and_true]
          by_cases he : t0 = t
          · rw [if_pos (by simp [he]), hzero t (he ▸ ht0)]
            simp
          · rw [if_neg (by simp [he])]
            exact ih2 t
        · intro hfatal t ht hat
          simp only [deliverForwards, h1, h2, Bool.false_eq_true, if_false, if_true]
            at hfatal ⊢
          rw [List.filter_cons, List.filter_cons]
          simp only [Option.isSome_none, Bool.and_false, Bool.false_eq_true, if_false,
            Option.isSome_some, Bool.and_true]
          rcases List.mem_cons.mp ht with hh | hh
          · rw [if_pos (by simp [hh]), hzero t (hh ▸ ht0)]
            simp
          · have hne : t0 ≠ t := fun he => absurd (he ▸ hh) ht0
            rw [if_neg (by simp [hne])]
            exact ih3 hfatal t hh hat
        · simp only [deliverForwards, h1, h2, Bool.false_eq_true, if_false, if_true]
          rw [ih4]
          constructor
          · rintro ⟨t, ht, hfail⟩
            exact ⟨t, List.mem_cons_of_mem _ ht, hfail⟩
          · rintro ⟨t, ht, hfail⟩
            rcases List.mem_cons.mp ht with hh | hh
            · rw [hh] at hfail
              rw [hfail.2] at h2
              simp at h2
            · exact ⟨t, hh, hfail⟩
      · rw [Bool.not_eq_true] at h2
        refine ⟨?_, ?_, ?_, ?_⟩
        · intro c hc hs hhs
          simp only [deliverForwards, h1, h2, Bool.false_eq_true, if_false] at hc
          rcases List.mem_cons.mp hc with hh | hh
          · rw [hh] at hhs
            simp at hhs
          · rcases List.mem_cons.mp hh with hh2 | hh2
            · rw [hh2] at hhs
              simp only [Option.some.injEq] at hhs
              rw [← hhs]
              exact ⟨rfl, rfl⟩
            · simp at hh2
        · intro t
          simp only [deliverForwards, h1, h2, Bool.false_eq_true, if_false,
            List.filter_cons, List.filter_nil]
          simp only [Option.isSome_none, Bool.and_false, Bool.false_eq_true, if_false,
            Option.isSome_some, Bool.and_true]
          by_cases he : t0 = t
          · rw [if_pos (by simp [he])]
            simp
          · rw [if_neg (by simp [he])]
            simp
        · intro hfatal
          simp only [deliverForwards, h1, h2, Bool.false_eq_true, if_false] at hfatal
          simp at hfatal
        · simp only [deliverForwards, h1, h2, Bool.false_eq_true, if_false]
          constructor
          · intro _
            exact ⟨t0, List.mem_cons_self _ _, h1, h2⟩
          · intro _
            trivial

/-- Witness for C1 (amended): one target whose first attempt raises and whose
rewritten retry succeeds produces exactly one retry call and no rejection. -/
theorem deliverForwards_retry_policy_witness :
    ((deliverForwards (some (str "fw@x.io")) (str "alice@src.io")
        (fun _ => false) (fun _ => true) [str "t@x.io"]).1.filter
        (fun c => c.target == str "t@x.io" && c.rewritten.isSome)).length = 1 := by
  have h := deliverForwards_retry_policy (some (str "fw@x.io")) (str "alice@src.io")
      (fun _ => false) (fun _ => true) [str "t@x.io"] (by decide)
  exact h.2.2.1 (by decide) (str "t@x.io") (by decide) (by decide)

/-! ### UploadProtocol: declared length and phase ordering (C3, C7) -/

/-- C3: every phase-1 request declares exactly the payload's byte length, and
a failing phase aborts the flow — the requests issued stop at the failing
phase and the result is `false`. -/
theorem uploadBytesToSlack_length_and_abort (o : UploadOracle)
    (channelId filename : JsStr) (bytes : List Nat) :
    (∀ fn len, UploadCall.getUrl fn len ∈
        (uploadBytesToSlack o channelId filename bytes).2 →
      fn = filename ∧ len = bytes.length) ∧
    (bytes.length ≠ 0 → o.getUrl filename bytes.length = none →
      uploadBytesToSlack o channelId filename bytes
        = (false, [.getUrl filename bytes.length])) ∧
    (∀ url fileId, bytes.length ≠ 0 →
      o.getUrl filename bytes.length = some (url, fileId) →
      o.postBytes url bytes = false →
      uploadBytesToSlack o channelId filename bytes
        = (false, [.getUrl filename bytes.length,
                   .postBytes url bytes.length])) ∧
    (∀ url fileId, bytes.length ≠ 0 →
      o.getUrl filename bytes.length = some (url, fileId) →
      o.postBytes url bytes = true → o.complete fileId channelId = false →
      uploadBytesToSlack o channelId filename bytes
        = (false, [.getUrl filename bytes.length, .postBytes url bytes.length,
                   .complete fileId channelId])) := by
  refine ⟨?_, ?_, ?_, ?_⟩
  · intro fn len hmem
    unfold uploadBytesToSlack at hmem
    split at hmem
    · simp at hmem
    · split at hmem
      · simp at hmem
        exact ⟨hmem.1, hmem.2⟩
      · split at hmem
        · split at hmem
          · simp at hmem
            exact ⟨hmem.1, hmem.2⟩
          · simp at hmem
            exact ⟨hmem.1, hmem.2⟩
        · simp at hmem
          exact ⟨hmem.1, hmem.2⟩
  · intro h0 hg
    unfold uploadBytesToSlack
    rw [if_neg h0, hg]
  · intro url fileId h0 hg hp
    unfold uploadBytesToSlack
    rw [if_neg h0, hg]
    simp only [hp, Bool.false_eq_true, if_false]
  · intro url fileId h0 hg hp hc
    unfold uploadBytesToSlack
    rw [if_neg h0, hg]
    simp only [hp, hc, Bool.false_eq_true, if_true, if_false]

/-- Witness for C3: a three-byte payload whose phase-1 request fails stops
after the phase-1 request with result `false`, and the declared length is 3. -/
theorem uploadBytesToSlack_length_and_abort_witness :
    uploadBytesToSlack
        ⟨fun _ _ => none, fun _ _ => false, fun _ _ => false⟩
        (str "C123") (str "mail.eml") [1, 2, 3]
      = (false, [.getUrl (str "mail.eml") 3]) := by
  have h := uploadBytesToSlack_length_and_abort
      ⟨fun _ _ => none, fun _ _ => false, fun _ _ => false⟩
      (str "C123") (str "mail.eml") [1, 2, 3]
  exact h.2.1 (by decide) rfl

/-- C7: a zero-length payload short-circuits to `false` and no request at
all is issued (in particular no phase-1 `files.getUploadURLExternal`). -/
theorem uploadBytesToSlack_zero_length (o : UploadOracle)
    (channelId filename : JsStr) (bytes : List Nat)
    (h : bytes.length = 0) :
    uploadBytesToSlack o channelId filename bytes = (false, []) := by
  unfold uploadBytesToSlack
  rw [if_pos h]

/-- Witness for C7: the empty payload with an always-succeeding oracle. -/
theorem uploadBytesToSlack_zero_length_witness :
    uploadBytesToSlack
        ⟨fun _ _ => some (str "u", str "F1"), fun _ _ => true, fun _ _ => true⟩
        (str "C123") (str "mail.eml") []
      = (false, []) :=
  uploadBytesToSlack_zero_length _ _ _ [] rfl

/-! ### ApiClient: retry policy (C4) -/

theorem slackApiGo_step (o : Nat → SlackResp) (retries fuel attempt : Nat) :
    slackApiGo o retries (fuel + 1) attempt =
      (match retryStepMs (o attempt) attempt retries with
       | none => ⟨finalResultOf (o attempt), [], 1⟩
       | some ms =>
         ⟨(slackApiGo o retries fuel (attempt + 1)).result,
          ms :: (slackApiGo o retries fuel (attempt + 1)).sleeps,
          (slackApiGo o retries fuel (attempt + 1)).requests + 1⟩) := by
  by_cases h429 : (o attempt).status = 429 ∧ attempt < retries
  · simp [slackApiGo, retryStepMs, h429]
  · cases hb : (o attempt).body with
    | none => simp [slackApiGo, retryStepMs, finalResultOf, h429, hb]
    | some j =>
      by_cases hok : j.ok = true
      · simp [slackApiGo, retryStepMs, finalResultOf, h429, hb, hok]
      · rw [Bool.not_eq_true] at hok
        by_cases hr : attempt < retries ∧ isRetryableSlackError j.error = true
        · have hs : (o attempt).status ≠ 429 := fun hs => h429 ⟨hs, hr.1⟩
          simp [slackApiGo, retryStepMs, finalResultOf, hs, hb, hok, hr]
        · simp [slackApiGo, retryStepMs, finalResultOf, h429, hb, hok, hr]

theorem retryStepMs_last_attempt (r : SlackResp) : retryStepMs r 2 2 = none := by
  have h2 : ¬ (2 < 2) := by omega
  unfold retryStepMs
  rw [if_neg (by simp [h2])]
  cases hb : r.body with
  | none => rfl
  | some j =>
    by_cases hok : j.ok = true
    · simp [hok]
    · simp [hok, h2]

/-- C4 (amended): attempt-indexed characterization of `slackApiJson` (three
attempts; a 429 sleeps the clamped `retry-after` hint, a transient platform
error sleeps linearly growing 600ms·(attempt+1), anything else returns at
once), together with: the 429 sleep duration always lies between 1 and 10
seconds, transient errors retry below the ceiling, and a non-retryable
platform error never retries and is returned as-is.  When all three attempts
fail with retryable responses, the result is the third attempt's own parsed
result — the literal `retries_exhausted` return is unreachable. -/
theorem slackApiJson_retry_policy (o : Nat → SlackResp) :
    (slackApiJson o =
      match retryStepMs (o 0) 0 2 with
      | none => ⟨finalResultOf (o 0), [], 1⟩
      | some s0 =>
        match retryStepMs (o 1) 1 2 with
        | none => ⟨finalResultOf (o 1), [s0], 2⟩
        | some s1 => ⟨finalResultOf (o 2), [s0, s1], 3⟩) ∧
    (∀ r attempt, attempt < 2 → r.status = 429 →
      retryStepMs r attempt 2
          = some (min (max (r.retryAfter.getD 1) 1) 10 * 1000) ∧
        1000 ≤ min (max (r.retryAfter.getD 1) 1) 10 * 1000 ∧
        min (max (r.retryAfter.getD 1) 1) 10 * 1000 ≤ 10000) ∧
    (∀ r attempt j, attempt < 2 → r.status ≠ 429 → r.body = some j →
      j.ok = false → isRetryableSlackError j.error = true →
      retryStepMs r attempt 2 = some (600 * (attempt + 1))) ∧
    (∀ r attempt j, r.status ≠ 429 → r.body = some j → j.ok = false →
      isRetryableSlackError j.error = false →
      retryStepMs r attempt 2 = none ∧
        finalResultOf r = ⟨false, some j.error⟩) := by
  refine ⟨?_, ?_, ?_, ?_⟩
  · show slackApiGo o 2 3 0 = _
    rw [show slackApiGo o 2 3 0 = slackApiGo o 2 (2 + 1) 0 from rfl,
      slackApiGo_step o 2 2 0]
    cases h0 : retryStepMs (o 0) 0 2 with
    | none => rfl
    | some s0 =>
      rw [show slackApiGo o 2 2 (0 + 1) = slackApiGo o 2 (1 + 1) 1 from rfl,
        slackApiGo_step o 2 1 1]
      cases h1 : retryStepMs (o 1) 1 2 with
      | none => rfl
      | some s1 =>
        rw [show slackApiGo o 2 1 (1 + 1) = slackApiGo o 2 (0 + 1) 2 from rfl,
          slackApiGo_step o 2 0 2, retryStepMs_last_attempt]
  · intro r attempt hlt h429
    refine ⟨?_, ?_, ?_⟩
    · unfold retryStepMs
      rw [if_pos ⟨h429, hlt⟩]
    · omega
    · omega
  · intro r attempt j hlt h429 hb hok hretry
    unfold retryStepMs
    rw [if_neg (by simp [h429]), hb]
    simp [hok, hlt, hretry]
  · intro r attempt j h429 hb hok hretry
    constructor
    · unfold retryStepMs
      rw [if_neg (by simp [h429]), hb]
      simp [hok, hretry]
    · unfold finalResultOf
      rw [hb]
      simp [hok]

/-- Witness for C4 (amended): a 429 with a large hint sleeps exactly 10
seconds, and a non-retryable `invalid_auth` error returns immediately after
one request. -/
theorem slackApiJson_retry_policy_witness :
    retryStepMs ⟨429, some 99, none⟩ 0 2 = some 10000 ∧
    slackApiJson (fun _ => ⟨200, none, some ⟨false, str "invalid_auth"⟩⟩)
      = ⟨⟨false, some (str "invalid_auth")⟩, [], 1⟩ := by
  constructor
  · have h := (slackApiJson_retry_policy
        (fun _ => ⟨200, none, some ⟨false, str "invalid_auth"⟩⟩)).2.1
        ⟨429, some 99, none⟩ 0 (by omega) rfl
    exact h.1.trans (by decide)
  · have h := (slackApiJson_retry_policy
        (fun _ => ⟨200, none, some ⟨false, str "invalid_auth"⟩⟩)).1
    rw [h]
    decide

/-- Counterexample to C4 as stated: every attempt answers HTTP 200 with
`ok:false, error:"ratelimited"`, so all retries are used up, yet the final
result carries the last attempt's error `"ratelimited"` — not
`"retries_exhausted"` as the claim demands (that return is dead code). -/
theorem slackApiJson_c4_counterexample :
    slackApiJson (fun _ => ⟨200, none, some ⟨false, str "ratelimited"⟩⟩)
      = ⟨⟨false, some (str "ratelimited")⟩, [600, 1200], 3⟩ ∧
    (str "ratelimited" : JsStr) ≠ str "retries_exhausted" := by
  constructor
  · decide
  · decide

/-! ### MessagePreviewRenderer: size budgets and ellipsis (C6) -/

/-- C6: every rendered mrkdwn field is at most 3000 characters, the preview
text is clamped to its 2500-character budget, and whenever the preview text
is actually truncated the clamped output is exactly 2500 characters ending
in the ellipsis marker (code point 8230). -/
theorem buildSlackBlocks_bounded (toHeader fromAddr subject bodyText : JsStr)
    (attachments : Option (List Att)) :
    (∀ f ∈ buildSlackBlocks toHeader fromAddr subject (bodyPreviewOf bodyText)
        attachments, f.length ≤ 3000) ∧
    (clampSlackMrkdwn bodyText 2500).length ≤ 2500 ∧
    (2500 < (escapeSlackMrkdwn (jsTrim bodyText)).length →
      (clampSlackMrkdwn bodyText 2500).length = 2500 ∧
      (clampSlackMrkdwn bodyText 2500).getLast? = some 8230) := by
  refine ⟨?_, ?_, ?_⟩
  · intro f hf
    unfold buildSlackBlocks at hf
    rcases List.mem_append.mp hf with h | h
    · simp only [List.mem_cons, List.not_mem_nil, or_false] at h
      rcases h with h | h | h | h <;> rw [h] <;>
        exact le_trans (le_of_eq (List.length_take _ _)) (Nat.min_le_left _ _)
    · cases attachments with
      | none => simp [attachmentField] at h
      | some atts =>
        by_cases hn : atts.length ≠ 0
        · rw [attachmentField, if_pos hn] at h
          simp only [List.mem_cons, List.not_mem_nil, or_false] at h
          rw [h]
          exact le_trans (le_of_eq (List.length_take _ _)) (Nat.min_le_left _ _)
        · rw [attachmentField, if_neg hn] at h
          simp at h
  · unfold clampSlackMrkdwn
    split_ifs with h1 h2
    · simp
    · exact h2
    · rw [List.length_append, List.length_take]
      simp only [List.length_cons, List.length_nil]
      omega
  · intro htrunc
    have hne : jsTrim bodyText ≠ [] := by
      intro h
      rw [h] at htrunc
      simp [escapeSlackMrkdwn] at htrunc
    unfold clampSlackMrkdwn
    rw [if_neg hne, if_neg (by omega)]
    constructor
    · rw [List.length_append, List.length_take]
      simp only [List.length_cons, List.length_nil]
      omega
    · exact List.getLast?_concat _

/-- Witness for C6: 2600 repetitions of `a` get clamped to exactly 2500
characters ending in the ellipsis. -/
theorem buildSlackBlocks_bounded_witness :
    (clampSlackMrkdwn (List.replicate 2600 97) 2500).length = 2500 ∧
    (clampSlackMrkdwn (List.replicate 2600 97) 2500).getLast? = some 8230 := by
  have hrep : ∀ n : Nat,
      escapeSlackMrkdwn (List.replicate n 97) = List.replicate n 97 := by
    intro n
    induction n with
    | zero => rfl
    | succ k ih =>
      rw [List.replicate_succ]
      show escapeCode 97 ++ escapeSlackMrkdwn (List.replicate k 97) = _
      rw [ih]
      rfl
  have htrim : jsTrim (List.replicate 2600 97) = List.replicate 2600 97 :=
    jsTrim_eq_self_of_not_ws fun c hc => by
      rw [List.eq_of_mem_replicate hc]
      rfl
  have h := (buildSlackBlocks_bounded (str "t") (str "f") (str "s")
      (List.replicate 2600 97) none).2.2
  apply h
  rw [htrim, hrep, List.length_replicate]
  omega

/-! ### SlackTargetResolver: caching (C8) -/

/-- Counterexample to C8 as stated: resolving the same direct-message user id
twice within one event (the second call reusing the first call's cache)
issues two `conversations.open` calls, not at most one — the dm branch never
touches the cache. -/
theorem resolveSlackTargetId_c8_counterexample :
    ((resolveSlackTargetId ⟨fun _ => some (str "D1"), [], fun _ => none⟩ true
        ⟨some (str "dm"), some (str "U1"), none, none, none, none⟩ []).2.2 ++
      (resolveSlackTargetId ⟨fun _ => some (str "D1"), [], fun _ => none⟩ true
        ⟨some (str "dm"), some (str "U1"), none, none, none, none⟩
        (resolveSlackTargetId ⟨fun _ => some (str "D1"), [], fun _ => none⟩ true
          ⟨some (str "dm"), some (str "U1"), none, none, none, none⟩ []).2.1).2.2
      ).countP isOpenCall = 2 := by
  decide

/-- C8 (amended): a direct-message resolution issues exactly one
`conversations.open` call on every invocation (dm results are not cached);
the event-scoped cache memoizes channel-by-name resolution, so a second
`ensureChannelByName` on the same name issues no platform call and returns
the first resolution's value. -/
theorem resolveSlackTargetId_cache_policy (o : ResolverOracle) (ac : Bool)
    (cache : ChannelCache) :
    (∀ route u, route.type = some (str "dm") → route.user = some u → u ≠ [] →
      (resolveSlackTargetId o ac route cache).2.2 = [SlackCall.convOpen u]) ∧
    (∀ name,
      (ensureChannelByName o ac name
        (ensureChannelByName o ac name cache).2.1).2.2 = [] ∧
      (ensureChannelByName o ac name
        (ensureChannelByName o ac name cache).2.1).1
        = (ensureChannelByName o ac name cache).1) := by
  have hget : ∀ (c : ChannelCache) (k : JsStr) (v : Option JsStr),
      cacheGet (cacheSet c k v) k = some v := by
    intro c k v
    simp [cacheGet, cacheSet]
  constructor
  · intro route u htype huser hne
    unfold resolveSlackTargetId
    rw [if_pos htype, huser]
    simp [hne]
  · intro name
    cases hc : cacheGet cache (str "channel:" ++ name) with
    | some v => simp [ensureChannelByName, hc]
    | none =>
      cases hf : (findChannelByName name o.pages).1 with
      | some id => simp [ensureChannelByName, hc, hf, hget]
      | none =>
        by_cases hac : ac = false
        · simp [ensureChannelByName, hc, hf, hac, hget]
        · simp [ensureChannelByName, hc, hf, hac, hget]

/-- Witness for C8 (amended): a concrete dm route issues exactly its one
open call. -/
theorem resolveSlackTargetId_cache_policy_witness :
    (resolveSlackTargetId ⟨fun _ => some (str "D1"), [], fun _ => none⟩ true
        ⟨some (str "dm"), some (str "U1"), none, none, none, none⟩ []).2.2
      = [SlackCall.convOpen (str "U1")] :=
  (resolveSlackTargetId_cache_policy
      ⟨fun _ => some (str "D1"), [], fun _ => none⟩ true []).1
    ⟨some (str "dm"), some (str "U1"), none, none, none, none⟩
    (str "U1") rfl rfl (by decide)

/-! ### Recipient extraction: totality, shape, sentinel (C9) -/

theorem lowerCode_idem (c : Nat) : lowerCode (lowerCode c) = lowerCode c := by
  unfold lowerCode
  by_cases h : 65 ≤ c ∧ c ≤ 90
  · rw [if_pos h, if_neg (by omega)]
  · rw [if_neg h, if_neg h]

theorem jsToLower_idem (s : JsStr) : jsToLower (jsToLower s) = jsToLower s := by
  unfold jsToLower
  rw [List.map_map]
  exact List.map_congr_left fun a _ => lowerCode_idem a

theorem matchEmailAt_ne_nil {l r : JsStr} (h : matchEmailAt l = some r) :
    r ≠ [] := by
  unfold matchEmailAt at h
  split at h
  · simp at h
  · split at h
    · obtain ⟨d, _, hr⟩ := Option.map_eq_some'.mp h
      rw [← hr]
      simp
    · simp at h

theorem extractFirstEmail_ne_nil :
    ∀ {s r : JsStr}, extractFirstEmail s = some r → r ≠ [] := by
  intro s
  induction s with
  | nil =>
    intro r h
    simp [extractFirstEmail] at h
  | cons c rest ih =>
    intro r h
    unfold extractFirstEmail at h
    cases hm : matchEmailAt (c :: rest) with
    | some m =>
      rw [hm] at h
      simp only [Option.some.injEq] at h
      exact h ▸ matchEmailAt_ne_nil hm
    | none =>
      rw [hm] at h
      exact ih h

theorem stripPlus_ne_nil {e : JsStr} (he : e ≠ []) : stripPlus e ≠ [] := by
  unfold stripPlus
  repeat' split
  all_goals first
    | exact he
    | simp

/-- C9: for every message shape (absent, string or array `to`, missing
headers) and both values of the plus-stripping option, `getPrimaryRecipient`
returns a nonempty string that is a fixed point of lower-casing, and when no
email-shaped substring occurs in the joined sources it returns the sentinel
`"unknown@unknown"`. -/
theorem getPrimaryRecipient_safe (msg : EmailMsg) (stripPA : Bool) :
    getPrimaryRecipient msg stripPA ≠ [] ∧
    jsToLower (getPrimaryRecipient msg stripPA) = getPrimaryRecipient msg stripPA ∧
    (extractFirstEmail (jsJoin (str ", ") (collectRecipientSources msg)) = none →
      getPrimaryRecipient msg stripPA = str "unknown@unknown") := by
  cases hm : extractFirstEmail (jsJoin (str ", ") (collectRecipientSources msg)) with
  | none =>
    refine ⟨?_, ?_, fun _ => ?_⟩ <;> simp only [getPrimaryRecipient, hm] <;> decide
  | some found =>
    have hne : found ≠ [] := extractFirstEmail_ne_nil hm
    refine ⟨?_, ?_, fun hc => absurd hc (by simp)⟩
    · simp only [getPrimaryRecipient, hm]
      intro h
      unfold jsToLower at h
      have hx := List.map_eq_nil_iff.mp h
      cases stripPA with
      | false =>
        simp only [Bool.false_eq_true, if_false] at hx
        exact hne hx
      | true =>
        simp only [if_true] at hx
        exact stripPlus_ne_nil hne hx
    · simp only [getPrimaryRecipient, hm]
      exact jsToLower_idem _

/-- Witness for C9: a `to` value with no email-shaped substring yields the
sentinel. -/
theorem getPrimaryRecipient_safe_witness :
    getPrimaryRecipient ⟨ToField.single (str "no address here"), none⟩ false
      = str "unknown@unknown" :=
  (getPrimaryRecipient_safe ⟨ToField.single (str "no address here"), none⟩
      false).2.2 (by decide)
